import Mathlib

/-!
# Verification of the v0fastform AppSpec core

This file embeds the AppSpec validator (`src/lib/types/appspec.ts`), the naming
heuristic (`src/lib/utils/app-naming.ts`) and the AppSpec → prompt compiler of
the v0fastform repository in Lean 4, and proves properties of the embedding.

The validator takes arbitrary JSON-like JavaScript values, so it is embedded
over an explicit `JsValue` type with JavaScript `typeof`, truthiness and
property-access semantics.  The compiler source file is absent from the
repository snapshot (only its test suite and documentation are present), so it
is modelled from the specification; such definitions carry a
`Modelled from the spec:` doc comment.
-/

namespace Fastform

/-- A JavaScript runtime value, as far as the AppSpec validator can observe it:
`null`, `undefined`, booleans, numbers (as rationals; `NaN` never arises in the
validated inputs), strings, arrays and plain objects (ordered key/value lists,
first binding wins on lookup, as produced by JSON parsing). -/
inductive JsValue where
  | null
  | undefined
  | bool (b : Bool)
  | num (q : Rat)
  | str (s : String)
  | arr (elems : List JsValue)
  | obj (fields : List (String × JsValue))

/-- First-match lookup in an object's key/value list. -/
def lookupKey : List (String × JsValue) → String → Option JsValue
  | [], _ => none
  | (k, v) :: rest, key => if k = key then some v else lookupKey rest key

/-- JavaScript property access `v[key]`: `undefined` on a missing key and on
non-objects (the validator only accesses properties behind truthiness and
`typeof`/`Array.isArray` guards, so the non-object cases are never reached with
observable effect). -/
def getProp : JsValue → String → JsValue
  | .obj fields, key => (lookupKey fields key).getD .undefined
  | _, _ => .undefined

/-- JavaScript `typeof`. -/
def jsTypeof : JsValue → String
  | .null => "object"
  | .undefined => "undefined"
  | .bool _ => "boolean"
  | .num _ => "number"
  | .str _ => "string"
  | .arr _ => "object"
  | .obj _ => "object"

/-- JavaScript truthiness. -/
def truthy : JsValue → Bool
  | .null => false
  | .undefined => false
  | .bool b => b
  | .num q => decide (q ≠ 0)
  | .str s => decide (s ≠ "")
  | .arr _ => true
  | .obj _ => true

/-- `Array.isArray`. -/
def isArrVal : JsValue → Bool
  | .arr _ => true
  | _ => false

/-- Whether the value is a plain (non-array) object. -/
def isObjVal : JsValue → Bool
  | .obj _ => true
  | _ => false

/-- JavaScript strict equality `v === lit` against a string literal. -/
def isStr (v : JsValue) (lit : String) : Bool :=
  match v with
  | .str s => decide (s = lit)
  | _ => false

/-- JavaScript `listOfStrings.includes(v)` for an unknown `v`. -/
def strIn (v : JsValue) (lits : List String) : Bool :=
  match v with
  | .str s => lits.contains s
  | _ => false

/-- The 7 supported page type literals (`validPageTypes` in `validatePages`). -/
def validPageTypes : List String :=
  ["welcome", "form", "review", "success", "login", "list", "detail"]

/-- The closed 5-value workflow state set (`validStates` in `validateWorkflow`). -/
def validStates : List String :=
  ["DRAFT", "SUBMITTED", "NEEDS_INFO", "APPROVED", "REJECTED"]

/-- The allowed analytics triggers (`validTriggers` in `validateAnalytics`). -/
def validTriggers : List String :=
  ["pageview", "action", "submit", "transition"]

/-- The required-top-level-fields check of `isValidAppSpec` (its first
`if (...) return false` block after the object guard). -/
def topLevelOk (spec : JsValue) : Bool :=
  jsTypeof (getProp spec "id") == "string"
  && isStr (getProp spec "version") "0.3"
  && truthy (getProp spec "meta")
  && truthy (getProp spec "theme")
  && isArrVal (getProp spec "roles")
  && isArrVal (getProp spec "pages")
  && truthy (getProp spec "workflow")
  && truthy (getProp spec "api")
  && truthy (getProp spec "analytics")
  && truthy (getProp spec "environments")

/-- The `// Validate meta` block of `isValidAppSpec`. -/
def metaOk (meta : JsValue) : Bool :=
  jsTypeof meta == "object"
  && jsTypeof (getProp meta "name") == "string"
  && jsTypeof (getProp meta "slug") == "string"
  && jsTypeof (getProp meta "description") == "string"
  && jsTypeof (getProp meta "orgId") == "string"
  && jsTypeof (getProp meta "orgSlug") == "string"

/-- The `// Validate theme` block of `isValidAppSpec`. -/
def themeOk (theme : JsValue) : Bool :=
  jsTypeof theme == "object" && isStr (getProp theme "preset") "healthcare-calm"

/-- `validateRoles` of `appspec.ts`. -/
def validateRoles (roles : JsValue) : Bool :=
  match roles with
  | .arr rs =>
      rs.all fun role =>
        truthy role && jsTypeof role == "object"
        && (isStr (getProp role "id") "PATIENT" || isStr (getProp role "id") "STAFF")
        && jsTypeof (getProp role "authRequired") == "boolean"
  | _ => false

/-- `validatePages` of `appspec.ts`.  Note that it reads only `id`, `route`,
`role`, `type` and `title` of each page; a page's `fields` are never
inspected. -/
def validatePages (pages : JsValue) : Bool :=
  match pages with
  | .arr ps =>
      ps.all fun page =>
        truthy page && jsTypeof page == "object"
        && jsTypeof (getProp page "id") == "string"
        && jsTypeof (getProp page "route") == "string"
        && (isStr (getProp page "role") "PATIENT" || isStr (getProp page "role") "STAFF")
        && strIn (getProp page "type") validPageTypes
        && jsTypeof (getProp page "title") == "string"
  | _ => false

/-- `validateWorkflow` of `appspec.ts`.  `initialState` is tested for
membership in the fixed `validStates` list, not in the document's own
`states` array. -/
def validateWorkflow (workflow : JsValue) : Bool :=
  (truthy workflow && jsTypeof workflow == "object")
  && (isArrVal (getProp workflow "states")
      && jsTypeof (getProp workflow "initialState") == "string"
      && isArrVal (getProp workflow "transitions"))
  && (match getProp workflow "states" with
      | .arr ss => ss.all fun state => strIn state validStates
      | _ => false)
  && strIn (getProp workflow "initialState") validStates
  && (match getProp workflow "transitions" with
      | .arr ts =>
          ts.all fun transition =>
            truthy transition && jsTypeof transition == "object"
            && (jsTypeof (getProp transition "from") == "string"
                || (match getProp transition "from" with
                    | .arr fs => fs.all fun s => jsTypeof s == "string"
                    | _ => false))
            && jsTypeof (getProp transition "to") == "string"
            && isArrVal (getProp transition "allowedRoles")
      | _ => false)

/-- `validateApi` of `appspec.ts`. -/
def validateApi (api : JsValue) : Bool :=
  (truthy api && jsTypeof api == "object")
  && isStr (getProp api "baseUrl") "\x7b\x7bFASTFORM_API_URL\x7d\x7d"
  && truthy (getProp api "endpoints")
  && jsTypeof (getProp api "endpoints") == "object"
  && jsTypeof (getProp (getProp api "endpoints") "createSubmission") == "string"
  && jsTypeof (getProp (getProp api "endpoints") "getSubmission") == "string"
  && jsTypeof (getProp (getProp api "endpoints") "resubmitSubmission") == "string"
  && jsTypeof (getProp (getProp api "endpoints") "staffLogin") == "string"
  && jsTypeof (getProp (getProp api "endpoints") "staffLogout") == "string"
  && jsTypeof (getProp (getProp api "endpoints") "staffSession") == "string"
  && jsTypeof (getProp (getProp api "endpoints") "listSubmissions") == "string"
  && jsTypeof (getProp (getProp api "endpoints") "getSubmissionDetail") == "string"
  && jsTypeof (getProp (getProp api "endpoints") "transitionSubmission") == "string"
  && jsTypeof (getProp (getProp api "endpoints") "trackEvent") == "string"

/-- `validateAnalytics` of `appspec.ts`.  It reads only `name` and `trigger`
of each event; an event's optional `page` is never inspected. -/
def validateAnalytics (analytics : JsValue) : Bool :=
  (truthy analytics && jsTypeof analytics == "object")
  && (match getProp analytics "events" with
      | .arr es =>
          es.all fun event =>
            truthy event && jsTypeof event == "object"
            && jsTypeof (getProp event "name") == "string"
            && strIn (getProp event "trigger") validTriggers
      | _ => false)

/-- `validateEnvironments` of `appspec.ts`. -/
def validateEnvironments (environments : JsValue) : Bool :=
  (truthy environments && jsTypeof environments == "object")
  && truthy (getProp environments "staging")
  && jsTypeof (getProp environments "staging") == "object"
  && jsTypeof (getProp (getProp environments "staging") "domain") == "string"
  && jsTypeof (getProp (getProp environments "staging") "apiUrl") == "string"
  && truthy (getProp environments "production")
  && jsTypeof (getProp environments "production") == "object"
  && jsTypeof (getProp (getProp environments "production") "domain") == "string"
  && jsTypeof (getProp (getProp environments "production") "apiUrl") == "string"

/-- `isValidAppSpec` of `appspec.ts`.  The source is a sequence of
`if (...) return false` blocks ending in `return true`; that control flow is
the conjunction of the blocks, in source order (`&&` short-circuits exactly as
the early returns do). -/
def isValidAppSpec (v : JsValue) : Bool :=
  (truthy v && jsTypeof v == "object")
  && topLevelOk v
  && metaOk (getProp v "meta")
  && themeOk (getProp v "theme")
  && validateRoles (getProp v "roles")
  && validatePages (getProp v "pages")
  && validateWorkflow (getProp v "workflow")
  && validateApi (getProp v "api")
  && validateAnalytics (getProp v "analytics")
  && validateEnvironments (getProp v "environments")

/-! ## Naming heuristic (`src/lib/utils/app-naming.ts`)

Strings are processed as their character lists.  JavaScript-regex whitespace
(`\s`) is modelled by `isJsWs` over the full ECMAScript WhiteSpace ∪
LineTerminator set.  `String.prototype.toLowerCase` is modelled on the ASCII
range (identity elsewhere), which coincides with JavaScript on every input
appearing in the repository's tests and in the claims.  `normalize('NFD')` is
modelled as the identity, which coincides with JavaScript on strings without
canonically decomposable characters (all ASCII and emoji input). -/

/-- ECMAScript `\s`: WhiteSpace and LineTerminator code points. -/
def isJsWs (c : Char) : Bool :=
  c == ' ' || c == '\t' || c == '\n' || c == '\r'
  || c.val == 0x0b || c.val == 0x0c
  || c.val == 0xa0 || c.val == 0x1680
  || (0x2000 ≤ c.val && c.val ≤ 0x200a)
  || c.val == 0x2028 || c.val == 0x2029 || c.val == 0x202f || c.val == 0x205f
  || c.val == 0x3000 || c.val == 0xfeff

/-- ASCII lower-casing of one character (JS `toLowerCase`, ASCII scope). -/
def lowerChar (c : Char) : Char :=
  if 'A' ≤ c && c ≤ 'Z' then Char.ofNat (c.toNat + 32) else c

/-- ASCII upper-casing of one character (JS `toUpperCase`, ASCII scope;
used on the first character of each word). -/
def upperChar (c : Char) : Char :=
  if 'a' ≤ c && c ≤ 'z' then Char.ofNat (c.toNat - 32) else c

/-- JS `s.toLowerCase()` (ASCII scope). -/
def jsToLower (s : String) : String :=
  ⟨s.data.map lowerChar⟩

/-- `replace(/\s+/g, ' ')`: collapse each maximal whitespace run to a single
space.  The flag records whether the previous character was whitespace. -/
def collapseWsAux : Bool → List Char → List Char
  | _, [] => []
  | prevWs, c :: rest =>
      if isJsWs c then
        if prevWs then collapseWsAux true rest
        else ' ' :: collapseWsAux true rest
      else c :: collapseWsAux false rest

/-- JS `trim()`: strip leading and trailing whitespace. -/
def trimWsL (l : List Char) : List Char :=
  ((l.dropWhile isJsWs).reverse.dropWhile isJsWs).reverse

/-- `intent.replace(/\s+/g, ' ').trim()` of `generateHeuristicName`. -/
def normalizeWs (s : String) : String :=
  ⟨trimWsL (collapseWsAux false s.data)⟩

/-- `COMMON_PREFIXES` of `app-naming.ts`, in source order. -/
def COMMON_PREFIXES : List String :=
  [ "i need an", "i need a"
  , "build me an", "build me a"
  , "create an", "create a"
  , "make me an", "make me a"
  , "i want an", "i want a" ]

/-- `needle` is a prefix of `hay` (JS `startsWith` on character lists). -/
def startsWithL : List Char → List Char → Bool
  | [], _ => true
  | _ :: _, [] => false
  | a :: as, b :: bs => a == b && startsWithL as bs

/-- The prefix-stripping loop of `generateHeuristicName`: the lowercased
input is tested against `COMMON_PREFIXES` in order; on the first match the
prefix's length is sliced off the (un-lowercased) input and the remainder is
trimmed; the loop then breaks. -/
def stripCommonPrefix (processed : String) : String :=
  match COMMON_PREFIXES.find? (fun p => startsWithL p.data (jsToLower processed).data) with
  | some p => ⟨trimWsL (processed.data.drop p.data.length)⟩
  | none => processed

/-- JS `split(' ')` at single spaces (every `\s` run was already collapsed to
one `' '` before this is used, so this agrees with `split(/\s+/)`). -/
def splitOnSpace : List Char → List (List Char)
  | [] => [[]]
  | c :: rest =>
      if c == ' ' then [] :: splitOnSpace rest
      else
        match splitOnSpace rest with
        | [] => [[c]]
        | w :: ws => (c :: w) :: ws

/-- JS `split(/\s+/)`: empty limbs at the ends are kept, exactly as in
JavaScript (a leading or trailing whitespace run yields an empty string). -/
def splitWs (l : List Char) : List (List Char) :=
  splitOnSpace (collapseWsAux false l)

/-- The word mapper of `generateName`: leave the empty word alone, otherwise
upper-case the first character (the whole text was lower-cased beforehand). -/
def capitalizeWord : List Char → List Char
  | [] => []
  | c :: rest => upperChar c :: rest

/-- JS `join(' ')`. -/
def joinSpace : List (List Char) → List Char
  | [] => []
  | [w] => w
  | w :: ws => w ++ ' ' :: joinSpace ws

/-- JS `lastIndexOf(' ')`: index of the last space, `-1` if none. -/
def lastIndexOfSpaceAux : List Char → Nat → Int → Int
  | [], _, best => best
  | c :: rest, i, best =>
      lastIndexOfSpaceAux rest (i + 1) (if c == ' ' then Int.ofNat i else best)

def lastIndexOfSpace (l : List Char) : Int :=
  lastIndexOfSpaceAux l 0 (-1)

/-- `NAME_MAX_LENGTH` of `app-naming.ts`. -/
def NAME_MAX_LENGTH : Nat := 50

/-- `SLUG_MAX_LENGTH` of `app-naming.ts`. -/
def SLUG_MAX_LENGTH : Nat := 30

/-- `generateName` of `app-naming.ts`: lower-case, title-case each
whitespace-delimited word, and truncate to 50 characters with `"..."`, cutting
at the last word boundary when it falls late enough.  The source compares
`lastSpace > maxWithoutEllipsis * 0.6` with `maxWithoutEllipsis = 47`; for an
integer `lastSpace`, `lastSpace > 28.19999...` (the floating-point product) is
exactly `lastSpace > 28`. -/
def generateName (text : String) : String :=
  let titleCased := joinSpace ((splitWs (jsToLower text).data).map capitalizeWord)
  if titleCased.length ≤ NAME_MAX_LENGTH then ⟨titleCased⟩
  else
    let maxWithoutEllipsis := NAME_MAX_LENGTH - 3
    let truncated := titleCased.take maxWithoutEllipsis
    let lastSpace := lastIndexOfSpace truncated
    let truncated' := if lastSpace > 28 then truncated.take lastSpace.toNat else truncated
    ⟨truncated' ++ ['.', '.', '.']⟩

/-- Unicode combining-mark range stripped by `generateSlug`
(`replace(/[̀-ͯ]/g, '')`). -/
def isCombining (c : Char) : Bool :=
  0x300 ≤ c.val && c.val ≤ 0x36f

/-- `replace(/[^\x00-\x7F]/g, '')`: keep ASCII only.  JavaScript operates on
UTF-16 code units, so an emoji (a surrogate pair, both units non-ASCII) is
dropped entirely, exactly as dropping the scalar here. -/
def isAsciiChar (c : Char) : Bool :=
  c.val ≤ 0x7f

/-- A slug-safe character for the `[^a-z0-9\s-]` class (after lower-casing):
lowercase letter, digit, hyphen, or whitespace. -/
def slugKeepChar (c : Char) : Bool :=
  ('a' ≤ c && c ≤ 'z') || ('0' ≤ c && c ≤ '9') || c == '-' || isJsWs c

/-- The hyphen-run collapse step (regex `-+` replaced by a single `-`). -/
def collapseHyphens : Bool → List Char → List Char
  | _, [] => []
  | prevH, c :: rest =>
      if c == '-' then
        if prevH then collapseHyphens true rest
        else '-' :: collapseHyphens true rest
      else c :: collapseHyphens false rest

/-- `replace(/^-+|-+$/g, '')`: strip leading and trailing hyphens. -/
def stripEdgeHyphens (l : List Char) : List Char :=
  ((l.dropWhile (· == '-')).reverse.dropWhile (· == '-')).reverse

/-- `generateSlug` of `app-naming.ts`, one regex pass per step, in source
order.  `normalize('NFD')` is the identity on the modelled character scope
(see the section comment); the combining-mark strip is kept as in the
source. -/
def generateSlug (text : String) : String :=
  let l0 := (jsToLower text).data
  let l1 := l0.filter (fun c => !isCombining c)
  let l2 := l1.filter isAsciiChar
  let l3 := l2.map (fun c => if c == '_' then '-' else c)
  let l4 := l3.map (fun c => if slugKeepChar c then c else ' ')
  let l5 := (collapseWsAux false l4).map (fun c => if c == ' ' then '-' else c)
  let l6 := collapseHyphens false l5
  let l7 := stripEdgeHyphens l6
  let l8 :=
    if SLUG_MAX_LENGTH < l7.length then
      ((l7.take SLUG_MAX_LENGTH).reverse.dropWhile (· == '-')).reverse
    else l7
  ⟨l8⟩

/-- The `{name, slug}` result of the naming heuristic. -/
structure HeuristicNameResult where
  name : String
  slug : String
deriving DecidableEq

/-- `generateHeuristicName` of `app-naming.ts`. -/
def generateHeuristicName (intent : String) : HeuristicNameResult :=
  let processed := stripCommonPrefix (normalizeWs intent)
  if processed.data.length == 0 then
    ⟨"Untitled App", "untitled-app"⟩
  else
    let name := generateName processed
    let slug := generateSlug processed
    if slug.data.length == 0 then
      ⟨"Untitled App", "untitled-app"⟩
    else
      ⟨name, slug⟩

/-! ## Theorems about the naming heuristic -/

/-- A nonempty string has nonempty character data. -/
lemma data_length_ne_zero_of_ne_empty (s : String) (h : s ≠ "") :
    (s.data.length == 0) = false := by
  cases s with
  | mk data =>
    cases data with
    | nil => exact absurd rfl h
    | cons c cs => rfl

/-- C7: `generateHeuristicName` returns the fixed fallback
`{name := "Untitled App", slug := "untitled-app"}` for the empty string, for
whitespace-only input, and for punctuation-only input.  (Totality — both
fields always being genuine strings — is intrinsic: `generateHeuristicName`
is a total Lean function into `HeuristicNameResult`.) -/
theorem generateHeuristicName_fallbacks :
    generateHeuristicName "" = ⟨"Untitled App", "untitled-app"⟩
    ∧ generateHeuristicName "   " = ⟨"Untitled App", "untitled-app"⟩
    ∧ generateHeuristicName "!@#$%" = ⟨"Untitled App", "untitled-app"⟩ := by
  refine ⟨?_, ?_, ?_⟩ <;> rfl

/-- C8: the prefix-stripping stage strips only a prefix occurring at the very
start of the (lower-cased) input — when no listed prefix starts the input,
the input is returned unchanged, so a prefix occurring mid-string is never
stripped.  Concretely, `"I need a task manager app"` yields
`{name := "Task Manager App", slug := "task-manager-app"}`, and at most one
prefix is stripped: `"I need a create a thing"` keeps the second phrase
(`"Create A Thing"`, not `"Thing"`). -/
theorem stripCommonPrefix_only_at_start :
    (∀ s : String,
        (COMMON_PREFIXES.all fun p => !startsWithL p.data (jsToLower s).data) = true →
        stripCommonPrefix s = s)
    ∧ generateHeuristicName "I need a task manager app"
        = ⟨"Task Manager App", "task-manager-app"⟩
    ∧ generateHeuristicName "I need a create a thing"
        = ⟨"Create A Thing", "create-a-thing"⟩ := by
  refine ⟨?_, rfl, rfl⟩
  intro s h
  have hnone : COMMON_PREFIXES.find?
      (fun p => startsWithL p.data (jsToLower s).data) = none := by
    rw [List.find?_eq_none]
    intro p hp
    have := List.all_eq_true.mp h p hp
    simpa using this
  simp [stripCommonPrefix, hnone]

/-- Witness for C8 at a concrete prefix-free input. -/
theorem stripCommonPrefix_only_at_start_witness :
    stripCommonPrefix "hello world" = "hello world" :=
  stripCommonPrefix_only_at_start.1 "hello world" (by decide)

/-- C9: whenever the whitespace-normalized, prefix-stripped remainder is
nonempty but its slug cleans to the empty string, `generateHeuristicName`
discards the computed name too and returns the full fallback pair — name and
slug never fall back independently. -/
theorem generateHeuristicName_joint_fallback :
    ∀ intent : String,
      stripCommonPrefix (normalizeWs intent) ≠ "" →
      generateSlug (stripCommonPrefix (normalizeWs intent)) = "" →
      generateHeuristicName intent = ⟨"Untitled App", "untitled-app"⟩ := by
  intro intent hne hslug
  simp only [generateHeuristicName, data_length_ne_zero_of_ne_empty _ hne, hslug,
    Bool.false_eq_true, if_false]
  rfl

/-- Witness for C9: an emoji-only intent has a nonempty remainder whose slug
cleans to empty, and the result is the full fallback pair. -/
theorem generateHeuristicName_joint_fallback_witness :
    generateHeuristicName "🚀🚀" = ⟨"Untitled App", "untitled-app"⟩ :=
  generateHeuristicName_joint_fallback "🚀🚀" (by decide) (by decide)

/-! ## Theorems about the validator -/

/-- C5: `isValidAppSpec` is a total Boolean predicate (it is a total Lean
function, mirroring the exception-free TypeScript source).  It returns
`false` on every non-object input — `null`, `undefined`, booleans, numbers,
strings and arrays — and on the empty object; and a document can only be
valid when its `version` property is strictly equal to the primitive string
`"0.3"` (so the JS number `0.3` is rejected). -/
theorem isValidAppSpec_totality :
    (∀ v, isObjVal v = false → isValidAppSpec v = false)
    ∧ isValidAppSpec (JsValue.obj []) = false
    ∧ (∀ v, isStr (getProp v "version") "0.3" = false → isValidAppSpec v = false) := by
  refine ⟨?_, by decide, ?_⟩
  · intro v h
    cases v <;>
      simp_all [isObjVal, isValidAppSpec, truthy, jsTypeof, topLevelOk, getProp, isStr]
  · intro v h
    cases hval : isValidAppSpec v with
    | false => rfl
    | true =>
      exfalso
      simp only [isValidAppSpec, topLevelOk, Bool.and_eq_true] at hval
      simp [h] at hval

/-- Witness for C5: a primitive input and a document carrying the JS number
`0.3` as its `version` are both rejected, via the two universal parts. -/
theorem isValidAppSpec_totality_witness :
    isValidAppSpec (JsValue.str "nope") = false
    ∧ isValidAppSpec (JsValue.obj [("version", JsValue.num (3 / 10))]) = false :=
  ⟨isValidAppSpec_totality.1 _ rfl, isValidAppSpec_totality.2.2 _ rfl⟩

/-! ### Property updates, for the never-inspected-field theorems -/

/-- Set (or add) a key in an object's key/value list. -/
def setKey : List (String × JsValue) → String → JsValue → List (String × JsValue)
  | [], k, val => [(k, val)]
  | (k', v') :: rest, k, val =>
      if k' = k then (k, val) :: rest else (k', v') :: setKey rest k val

/-- JS property assignment `v[k] = val` (no effect on non-objects). -/
def setProp (v : JsValue) (k : String) (val : JsValue) : JsValue :=
  match v with
  | .obj fields => .obj (setKey fields k val)
  | other => other

/-- Map a function over an array value (no effect on non-arrays). -/
def mapArr (f : JsValue → JsValue) : JsValue → JsValue
  | .arr l => .arr (l.map f)
  | other => other

lemma lookupKey_setKey_ne (l : List (String × JsValue)) (k : String) (val : JsValue)
    (k' : String) (h : k' ≠ k) : lookupKey (setKey l k val) k' = lookupKey l k' := by
  induction l with
  | nil => simp [setKey, lookupKey, Ne.symm h]
  | cons kv rest ih =>
    obtain ⟨k₀, v₀⟩ := kv
    by_cases hk : k₀ = k
    · subst hk
      simp [setKey, lookupKey, Ne.symm h]
    · simp [setKey, lookupKey, hk, ih]

lemma getProp_setProp_ne (v : JsValue) (k : String) (val : JsValue)
    (k' : String) (h : k' ≠ k) : getProp (setProp v k val) k' = getProp v k' := by
  cases v <;> simp [setProp, getProp, lookupKey_setKey_ne _ _ _ _ h]

lemma lookupKey_setKey_self (l : List (String × JsValue)) (k : String) (val : JsValue) :
    lookupKey (setKey l k val) k = some val := by
  induction l with
  | nil => simp [setKey, lookupKey]
  | cons kv rest ih =>
    obtain ⟨k₀, v₀⟩ := kv
    by_cases hk : k₀ = k
    · subst hk; simp [setKey, lookupKey]
    · simp [setKey, lookupKey, hk, ih]

lemma getProp_setProp_self (l : List (String × JsValue)) (k : String) (val : JsValue) :
    getProp (setProp (.obj l) k val) k = val := by
  simp [setProp, getProp, lookupKey_setKey_self]

lemma truthy_setProp (v : JsValue) (k : String) (val : JsValue) :
    truthy (setProp v k val) = truthy v := by
  cases v <;> rfl

lemma jsTypeof_setProp (v : JsValue) (k : String) (val : JsValue) :
    jsTypeof (setProp v k val) = jsTypeof v := by
  cases v <;> rfl

lemma truthy_mapArr (f : JsValue → JsValue) (v : JsValue) :
    truthy (mapArr f v) = truthy v := by
  cases v <;> rfl

lemma isArrVal_mapArr (f : JsValue → JsValue) (v : JsValue) :
    isArrVal (mapArr f v) = isArrVal v := by
  cases v <;> rfl

/-- Overwrite the four optional fields that the validator never reads —
`theme.logo`, `theme.colors`, every role's `routePrefix`, and every analytics
event's `page` — with arbitrary junk values. -/
def corruptOptionals (d logoJ colorsJ routeJ pageJ : JsValue) : JsValue :=
  match d with
  | .obj _ =>
      let theme' := setProp (setProp (getProp d "theme") "logo" logoJ) "colors" colorsJ
      let roles' := mapArr (fun r => setProp r "routePrefix" routeJ) (getProp d "roles")
      let analytics' := setProp (getProp d "analytics") "events"
        (mapArr (fun e => setProp e "page" pageJ)
          (getProp (getProp d "analytics") "events"))
      setProp (setProp (setProp d "theme" theme') "roles" roles') "analytics" analytics'
  | other => other

lemma all_congrB {α : Type} (l : List α) (f g : α → Bool)
    (h : ∀ x ∈ l, f x = g x) : l.all f = l.all g := by
  induction l with
  | nil => rfl
  | cons x xs ih =>
    simp only [List.all_cons, h x (List.mem_cons_self x xs)]
    rw [ih fun y hy => h y (List.mem_cons_of_mem x hy)]

lemma themeOk_corrupt (t logoJ colorsJ : JsValue) :
    themeOk (setProp (setProp t "logo" logoJ) "colors" colorsJ) = themeOk t := by
  rw [themeOk, themeOk, jsTypeof_setProp, jsTypeof_setProp,
    getProp_setProp_ne _ _ _ _ (by decide), getProp_setProp_ne _ _ _ _ (by decide)]

lemma validateRoles_corrupt (routeJ : JsValue) (v : JsValue) :
    validateRoles (mapArr (fun r => setProp r "routePrefix" routeJ) v) = validateRoles v := by
  cases v with
  | arr rs =>
      simp only [validateRoles, mapArr, List.all_map, Function.comp]
      apply all_congrB
      intro r _
      simp only [Function.comp_apply]
      rw [truthy_setProp, jsTypeof_setProp,
        getProp_setProp_ne _ _ _ _ (by decide),
        getProp_setProp_ne _ _ _ _ (by decide)]
  | _ => rfl

lemma validateAnalytics_corrupt (pageJ : JsValue) (a : JsValue) :
    validateAnalytics
      (setProp a "events"
        (mapArr (fun e => setProp e "page" pageJ) (getProp a "events")))
      = validateAnalytics a := by
  cases a with
  | obj l =>
      rw [validateAnalytics, validateAnalytics, truthy_setProp, jsTypeof_setProp,
        getProp_setProp_self]
      cases hev : getProp (JsValue.obj l) "events" with
      | arr es =>
          simp only [mapArr, List.all_map, Function.comp]
          congr 1
          apply all_congrB
          intro e _
          simp only [Function.comp_apply]
          rw [truthy_setProp, jsTypeof_setProp,
            getProp_setProp_ne _ _ _ _ (by decide),
            getProp_setProp_ne _ _ _ _ (by decide)]
      | _ => rfl
  | _ => rfl

/-- C10: `isValidAppSpec` never inspects `theme.logo`, `theme.colors`, a
role's `routePrefix`, or an analytics event's `page`: overwriting all of them
with arbitrary (arbitrarily ill-typed) values never changes the verdict, so a
document with junk in those positions is accepted whenever the document with
them removed or well-typed is. -/
theorem isValidAppSpec_ignores_optional_fields :
    ∀ d logoJ colorsJ routeJ pageJ : JsValue,
      isValidAppSpec (corruptOptionals d logoJ colorsJ routeJ pageJ) = isValidAppSpec d := by
  intro d logoJ colorsJ routeJ pageJ
  cases d with
  | obj fields =>
      simp only [corruptOptionals]
      have hne : ∀ k : String, k ≠ "theme" → k ≠ "roles" → k ≠ "analytics" →
          getProp (setProp (setProp (setProp (JsValue.obj fields) "theme"
              (setProp (setProp (getProp (JsValue.obj fields) "theme") "logo" logoJ)
                "colors" colorsJ))
            "roles" (mapArr (fun r => setProp r "routePrefix" routeJ)
              (getProp (JsValue.obj fields) "roles")))
            "analytics" (setProp (getProp (JsValue.obj fields) "analytics") "events"
              (mapArr (fun e => setProp e "page" pageJ)
                (getProp (getProp (JsValue.obj fields) "analytics") "events")))) k
          = getProp (JsValue.obj fields) k := by
        intro k h1 h2 h3
        rw [getProp_setProp_ne _ _ _ _ h3, getProp_setProp_ne _ _ _ _ h2,
          getProp_setProp_ne _ _ _ _ h1]
      rw [isValidAppSpec, isValidAppSpec, truthy_setProp, truthy_setProp, truthy_setProp,
        jsTypeof_setProp, jsTypeof_setProp, jsTypeof_setProp]
      rw [topLevelOk, topLevelOk,
        hne "id" (by decide) (by decide) (by decide),
        hne "version" (by decide) (by decide) (by decide),
        hne "meta" (by decide) (by decide) (by decide),
        hne "pages" (by decide) (by decide) (by decide),
        hne "workflow" (by decide) (by decide) (by decide),
        hne "api" (by decide) (by decide) (by decide),
        hne "environments" (by decide) (by decide) (by decide)]
      rw [show getProp (setProp (setProp (setProp (JsValue.obj fields) "theme"
            (setProp (setProp (getProp (JsValue.obj fields) "theme") "logo" logoJ)
              "colors" colorsJ))
          "roles" (mapArr (fun r => setProp r "routePrefix" routeJ)
            (getProp (JsValue.obj fields) "roles")))
          "analytics" (setProp (getProp (JsValue.obj fields) "analytics") "events"
            (mapArr (fun e => setProp e "page" pageJ)
              (getProp (getProp (JsValue.obj fields) "analytics") "events")))) "analytics"
        = setProp (getProp (JsValue.obj fields) "analytics") "events"
            (mapArr (fun e => setProp e "page" pageJ)
              (getProp (getProp (JsValue.obj fields) "analytics") "events"))
        from getProp_setProp_self _ _ _]
      rw [show getProp (setProp (setProp (setProp (JsValue.obj fields) "theme"
            (setProp (setProp (getProp (JsValue.obj fields) "theme") "logo" logoJ)
              "colors" colorsJ))
          "roles" (mapArr (fun r => setProp r "routePrefix" routeJ)
            (getProp (JsValue.obj fields) "roles")))
          "analytics" (setProp (getProp (JsValue.obj fields) "analytics") "events"
            (mapArr (fun e => setProp e "page" pageJ)
              (getProp (getProp (JsValue.obj fields) "analytics") "events")))) "roles"
        = mapArr (fun r => setProp r "routePrefix" routeJ)
            (getProp (JsValue.obj fields) "roles")
        from by
          rw [getProp_setProp_ne _ _ _ _ (by decide)]
          exact getProp_setProp_self _ _ _]
      rw [show getProp (setProp (setProp (setProp (JsValue.obj fields) "theme"
            (setProp (setProp (getProp (JsValue.obj fields) "theme") "logo" logoJ)
              "colors" colorsJ))
          "roles" (mapArr (fun r => setProp r "routePrefix" routeJ)
            (getProp (JsValue.obj fields) "roles")))
          "analytics" (setProp (getProp (JsValue.obj fields) "analytics") "events"
            (mapArr (fun e => setProp e "page" pageJ)
              (getProp (getProp (JsValue.obj fields) "analytics") "events")))) "theme"
        = setProp (setProp (getProp (JsValue.obj fields) "theme") "logo" logoJ)
            "colors" colorsJ
        from by
          rw [getProp_setProp_ne _ _ _ _ (by decide),
            getProp_setProp_ne _ _ _ _ (by decide)]
          exact getProp_setProp_self _ _ _]
      simp only [truthy_setProp, truthy_mapArr, isArrVal_mapArr,
        themeOk_corrupt, validateRoles_corrupt, validateAnalytics_corrupt]
  | null => rfl
  | undefined => rfl
  | bool b => rfl
  | num q => rfl
  | str s => rfl
  | arr l => rfl

/-- JS array indexing `v[i]` (element, or `undefined` out of range /
on non-arrays); used only to state facts about concrete documents. -/
def getIndex : JsValue → Nat → JsValue
  | .arr l, i => l.getD i .undefined
  | _, _ => .undefined

/-- The 9 members of the `FieldType` union in `appspec.ts`. -/
def fieldTypeLiterals : List String :=
  ["text", "email", "tel", "date", "textarea", "select", "radio", "checkbox", "number"]

/-- A complete, `isValidAppSpec`-accepted document whose single page carries a
field of type `"file"` (outside the 9 `FieldType` literals) and whose
`workflow.initialState` (`"APPROVED"`) is not a member of the document's own
`workflow.states` (`["DRAFT", "SUBMITTED"]`). -/
def c3doc : JsValue :=
  .obj
    [ ("id", .str "app-1")
    , ("version", .str "0.3")
    , ("meta", .obj
        [ ("name", .str "Test App"), ("slug", .str "test-app")
        , ("description", .str "A test application")
        , ("orgId", .str "org-1"), ("orgSlug", .str "test-org") ])
    , ("theme", .obj [("preset", .str "healthcare-calm")])
    , ("roles", .arr [ .obj [("id", .str "PATIENT"), ("authRequired", .bool false)] ])
    , ("pages", .arr
        [ .obj
            [ ("id", .str "intake"), ("route", .str "/intake")
            , ("role", .str "PATIENT"), ("type", .str "form")
            , ("title", .str "Intake Form")
            , ("fields", .arr
                [ .obj
                    [ ("id", .str "upload"), ("type", .str "file")
                    , ("label", .str "Upload File") ] ]) ] ])
    , ("workflow", .obj
        [ ("states", .arr [.str "DRAFT", .str "SUBMITTED"])
        , ("initialState", .str "APPROVED")
        , ("transitions", .arr
            [ .obj
                [ ("from", .str "DRAFT"), ("to", .str "SUBMITTED")
                , ("allowedRoles", .arr [.str "PATIENT"]) ] ]) ])
    , ("api", .obj
        [ ("baseUrl", .str "\x7b\x7bFASTFORM_API_URL\x7d\x7d")
        , ("endpoints", .obj
            [ ("createSubmission", .str "POST /api/apps/:appId/submissions")
            , ("getSubmission", .str "GET /api/apps/:appId/submissions/:id")
            , ("resubmitSubmission", .str "POST /api/apps/:appId/submissions/:id/resubmit")
            , ("staffLogin", .str "POST /api/apps/:appId/staff/login")
            , ("staffLogout", .str "POST /api/apps/:appId/staff/logout")
            , ("staffSession", .str "GET /api/apps/:appId/staff/session")
            , ("listSubmissions", .str "GET /api/apps/:appId/staff/inbox")
            , ("getSubmissionDetail", .str "GET /api/apps/:appId/staff/submissions/:id")
            , ("transitionSubmission", .str "POST /api/apps/:appId/staff/submissions/:id/transition")
            , ("trackEvent", .str "POST /api/apps/:appId/events") ]) ])
    , ("analytics", .obj [("events", .arr [ .obj
        [ ("name", .str "page_view"), ("trigger", .str "pageview") ] ])])
    , ("environments", .obj
        [ ("staging", .obj
            [ ("domain", .str "test-app-staging.getfastform.com")
            , ("apiUrl", .str "https://api-staging.getfastform.com") ])
        , ("production", .obj
            [ ("domain", .str "test-app.getfastform.com")
            , ("apiUrl", .str "https://api.getfastform.com") ]) ]) ]

/-- Counterexample to C3: `c3doc` is accepted by `isValidAppSpec` although its
page's field has type `"file"`, outside the 9 `FieldType` literals, and its
`workflow.initialState` is not a member of its own `workflow.states`. -/
theorem isValidAppSpec_field_and_initialState_counterexample :
    isValidAppSpec c3doc = true
    ∧ getProp (getIndex (getProp (getIndex (getProp c3doc "pages") 0) "fields") 0) "type"
        = JsValue.str "file"
    ∧ fieldTypeLiterals.contains "file" = false
    ∧ getProp (getProp c3doc "workflow") "initialState" = JsValue.str "APPROVED"
    ∧ getProp (getProp c3doc "workflow") "states"
        = JsValue.arr [JsValue.str "DRAFT", JsValue.str "SUBMITTED"]
    ∧ (["DRAFT", "SUBMITTED"] : List String).contains "APPROVED" = false := by
  refine ⟨by decide, rfl, by decide, rfl, rfl, by decide⟩

/-- Overwrite every page's `fields` entry with an arbitrary junk value. -/
def corruptPagesFields (d junk : JsValue) : JsValue :=
  match d with
  | .obj _ =>
      setProp d "pages"
        (mapArr (fun p => setProp p "fields" junk) (getProp d "pages"))
  | other => other

lemma validatePages_corrupt (junk : JsValue) (v : JsValue) :
    validatePages (mapArr (fun p => setProp p "fields" junk) v) = validatePages v := by
  cases v with
  | arr ps =>
      simp only [validatePages, mapArr, List.all_map, Function.comp]
      apply all_congrB
      intro p _
      simp only [Function.comp_apply]
      rw [truthy_setProp, jsTypeof_setProp,
        getProp_setProp_ne _ _ _ _ (by decide),
        getProp_setProp_ne _ _ _ _ (by decide),
        getProp_setProp_ne _ _ _ _ (by decide),
        getProp_setProp_ne _ _ _ _ (by decide),
        getProp_setProp_ne _ _ _ _ (by decide)]
  | _ => rfl

/-- C3 amended: `isValidAppSpec` never inspects any page's `fields`
(overwriting them all with junk never changes the verdict), and
`workflow.initialState` is only checked for membership in the fixed global
five-state list `validStates`, not in the document's own `states` array. -/
theorem isValidAppSpec_fields_unchecked_initialState_global :
    (∀ d junk : JsValue,
        isValidAppSpec (corruptPagesFields d junk) = isValidAppSpec d)
    ∧ (∀ d : JsValue, isValidAppSpec d = true →
        strIn (getProp (getProp d "workflow") "initialState") validStates = true) := by
  constructor
  · intro d junk
    cases d with
    | obj fields =>
        simp only [corruptPagesFields]
        have hne : ∀ k : String, k ≠ "pages" →
            getProp (setProp (JsValue.obj fields) "pages"
              (mapArr (fun p => setProp p "fields" junk)
                (getProp (JsValue.obj fields) "pages"))) k
            = getProp (JsValue.obj fields) k := by
          intro k hk
          rw [getProp_setProp_ne _ _ _ _ hk]
        rw [isValidAppSpec, isValidAppSpec, truthy_setProp, jsTypeof_setProp]
        rw [topLevelOk, topLevelOk,
          hne "id" (by decide), hne "version" (by decide), hne "meta" (by decide),
          hne "theme" (by decide), hne "roles" (by decide),
          hne "workflow" (by decide), hne "api" (by decide),
          hne "analytics" (by decide), hne "environments" (by decide),
          getProp_setProp_self]
        rw [isArrVal_mapArr, validatePages_corrupt]
    | null => rfl
    | undefined => rfl
    | bool b => rfl
    | num q => rfl
    | str s => rfl
    | arr l => rfl
  · intro d h
    simp only [isValidAppSpec, Bool.and_eq_true] at h
    have hw : validateWorkflow (getProp d "workflow") = true := h.1.1.1.2
    simp only [validateWorkflow, Bool.and_eq_true] at hw
    exact hw.1.2

/-- Witness for the amended C3 theorem at the concrete accepted document. -/
theorem isValidAppSpec_fields_unchecked_witness :
    strIn (getProp (getProp c3doc "workflow") "initialState") validStates = true :=
  isValidAppSpec_fields_unchecked_initialState_global.2 c3doc (by decide)

/-! ## The prompt compiler

The compiler source file (`src/lib/compiler/appspec-to-prompt.ts`) is absent
from the repository snapshot; only its test suite and documentation are
present.  Per the spec it is a pure, deterministic function on an (already
typed) `FastformAppSpec`, so it is modelled here over typed structures whose
enum-like positions are plain strings (the TypeScript unions are erased at
runtime, and the unsupported-feature checks are exactly about values outside
those unions). -/

/-- `AppMeta` of `appspec.ts`. -/
structure AppMeta where
  name : String
  slug : String
  description : String
  orgId : String
  orgSlug : String
deriving DecidableEq

/-- The optional `colors` of `ThemeConfig`. -/
structure ThemeColors where
  primary : Option String
  background : Option String
  text : Option String
deriving DecidableEq

/-- `ThemeConfig` of `appspec.ts`. -/
structure ThemeConfig where
  preset : String
  logo : Option String
  colors : Option ThemeColors
deriving DecidableEq

/-- `Role` of `appspec.ts`. -/
structure Role where
  id : String
  authRequired : Bool
  routePrefix : Option String
deriving DecidableEq

/-- `Option` of `appspec.ts` (select/radio choice); renamed to avoid the
Lean `Option` type. -/
structure FieldOption where
  value : String
  label : String
deriving DecidableEq

/-- `Condition` of `appspec.ts` (`value` is absent for `exists`). -/
structure FieldCondition where
  field : String
  operator : String
  value : Option String
deriving DecidableEq

/-- `ValidationRule` of `appspec.ts`; `value` is kept in its rendered string
form (the source allows `string | number` and only interpolates it). -/
structure ValidationRule where
  type : String
  value : String
  message : String
deriving DecidableEq

/-- `Field` of `appspec.ts`. -/
structure Field where
  id : String
  type : String
  label : String
  placeholder : Option String
  required : Option Bool
  options : Option (List FieldOption)
  condition : Option FieldCondition
  validation : Option (List ValidationRule)
deriving DecidableEq

/-- `Action` of `appspec.ts`. -/
structure Action where
  id : String
  label : String
  targetState : String
  requiresNote : Option Bool
  variant : String
deriving DecidableEq

/-- `Page` of `appspec.ts`. -/
structure Page where
  id : String
  route : String
  role : String
  type : String
  title : String
  description : Option String
  fields : Option (List Field)
  actions : Option (List Action)
deriving DecidableEq

/-- The `from` position of a `Transition`: one state or a set of states. -/
inductive TransitionFrom where
  | single (state : String)
  | multiple (states : List String)
deriving DecidableEq

/-- `Transition` of `appspec.ts` (`from` and `to` collide with Lean syntax,
hence `fromStates` and `toState`). -/
structure Transition where
  fromStates : TransitionFrom
  toState : String
  allowedRoles : List String
deriving DecidableEq

/-- `WorkflowConfig` of `appspec.ts`. -/
structure WorkflowConfig where
  states : List String
  initialState : String
  transitions : List Transition
deriving DecidableEq

/-- The 10 named endpoints of `ApiConfig` of `appspec.ts`. -/
structure ApiEndpoints where
  createSubmission : String
  getSubmission : String
  resubmitSubmission : String
  staffLogin : String
  staffLogout : String
  staffSession : String
  listSubmissions : String
  getSubmissionDetail : String
  transitionSubmission : String
  trackEvent : String
deriving DecidableEq

/-- `ApiConfig` of `appspec.ts`. -/
structure ApiConfig where
  baseUrl : String
  endpoints : ApiEndpoints
deriving DecidableEq

/-- `AnalyticsEvent` of `appspec.ts`. -/
structure AnalyticsEvent where
  name : String
  trigger : String
  page : Option String
deriving DecidableEq

/-- `AnalyticsConfig` of `appspec.ts`. -/
structure AnalyticsConfig where
  events : List AnalyticsEvent
deriving DecidableEq

/-- One deployment target of `EnvironmentConfig`. -/
structure EnvTarget where
  domain : String
  apiUrl : String
deriving DecidableEq

/-- `EnvironmentConfig` of `appspec.ts`. -/
structure EnvironmentConfig where
  staging : EnvTarget
  production : EnvTarget
deriving DecidableEq

/-- `FastformAppSpec` of `appspec.ts`, as the typed compiler input. -/
structure FastformAppSpec where
  id : String
  version : String
  meta : AppMeta
  theme : ThemeConfig
  roles : List Role
  pages : List Page
  workflow : WorkflowConfig
  api : ApiConfig
  analytics : AnalyticsConfig
  environments : EnvironmentConfig
deriving DecidableEq

/-- Modelled from the spec: the error thrown by the compiler on the first
unsupported construct — `message` (contains the offending literal and
"not supported"), a dotted machine-readable `feature` path, and an optional
`suggestion`. -/
structure UnsupportedAppSpecFeatureError where
  message : String
  feature : String
  suggestion : Option String
deriving DecidableEq

/-- Modelled from the spec: the v1 page-type allow-list. -/
def SUPPORTED_PAGE_TYPES : List String :=
  ["welcome", "form", "review", "success", "login", "list", "detail"]

/-- Modelled from the spec: the v1 field-type allow-list. -/
def SUPPORTED_FIELD_TYPES : List String :=
  ["text", "email", "tel", "date", "textarea", "select", "radio", "checkbox", "number"]

/-- Modelled from the spec: the closed v1 workflow-state set. -/
def SUPPORTED_WORKFLOW_STATES : List String :=
  ["DRAFT", "SUBMITTED", "NEEDS_INFO", "APPROVED", "REJECTED"]

/-- Modelled from the spec: the unsupported-page-type error. -/
def pageTypeError (t : String) : UnsupportedAppSpecFeatureError where
  message := "Page type \"" ++ t ++ "\" is not supported in v1"
  feature := "page.type." ++ t
  suggestion := some "Supported page types: welcome, form, review, success, login, list, detail"

/-- Modelled from the spec: the unsupported-field-type error. -/
def fieldTypeError (t : String) : UnsupportedAppSpecFeatureError where
  message := "Field type \"" ++ t ++ "\" is not supported in v1"
  feature := "field.type." ++ t
  suggestion := some "Supported field types: text, email, tel, date, textarea, select, radio, checkbox, number"

/-- Modelled from the spec: the unsupported-workflow-state error. -/
def workflowStateError (st : String) : UnsupportedAppSpecFeatureError where
  message := "Workflow state \"" ++ st ++ "\" is not supported in v1"
  feature := "workflow.state." ++ st
  suggestion := some "Use simple workflow with states: DRAFT, SUBMITTED, NEEDS_INFO, APPROVED, REJECTED"

/-- Modelled from the spec: the workflow-complexity error; the message
reports both the transition count and the state count. -/
def workflowComplexityError (transitionCount stateCount : Nat) : UnsupportedAppSpecFeatureError where
  message := "Workflow is too complex for v1: "
    ++ (toString transitionCount ++ " transitions")
    ++ (" across " ++ (toString stateCount ++ " states"))
  feature := "workflow.complexity"
  suggestion := some "Simplify workflow to at most 3 transitions per declared state"

/-- `List.mapM` specialised to `Except` (explicit matches; identical to the
monadic bind chain): the first failure aborts. -/
def mapME {ε α β : Type} (f : α → Except ε β) : List α → Except ε (List β)
  | [] => .ok []
  | x :: xs =>
      match f x with
      | .error e => .error e
      | .ok y =>
          match mapME f xs with
          | .error e => .error e
          | .ok ys => .ok (y :: ys)

/-- Modelled from the spec: a known validation rule renders in natural
language; an unknown rule `type` does not error and renders generically as
`type: value`. -/
def renderValidationRule (r : ValidationRule) : String :=
  if r.type = "minLength" then "minimum " ++ r.value ++ " characters"
  else if r.type = "maxLength" then "maximum " ++ r.value ++ " characters"
  else if r.type = "pattern" then "pattern " ++ r.value
  else if r.type = "min" then "minimum value " ++ r.value
  else if r.type = "max" then "maximum value " ++ r.value
  else r.type ++ ": " ++ r.value

/-- Modelled from the spec: conditional visibility as a natural-language
clause. -/
def renderConditionText (c : FieldCondition) : String :=
  if c.operator = "exists" then "shown when field \"" ++ c.field ++ "\" exists"
  else "shown when field \"" ++ c.field ++ "\" " ++ c.operator ++ " " ++ (c.value.getD "")

/-- One select/radio option line. -/
def renderFieldOption (o : FieldOption) : String :=
  "      * option " ++ o.value ++ ": " ++ o.label ++ "\n"

/-- One validation-rule line. -/
def renderValidationLine (r : ValidationRule) : String :=
  "      * validation: " ++ renderValidationRule r ++ "\n"

/-- The leading part of a rendered field: identity, type, label, modifiers,
options. -/
def fieldHead (f : Field) : String :=
  "  - Field " ++ f.id ++ " (" ++ f.type ++ "): " ++ f.label
    ++ (match f.placeholder with
        | some p => ", placeholder: " ++ p
        | none => "")
    ++ (match f.required with
        | some true => ", required"
        | some false => ", optional"
        | none => "")
    ++ (match f.condition with
        | some c => ", " ++ renderConditionText c
        | none => "")
    ++ "\n"
    ++ String.join ((f.options.getD []).map renderFieldOption)

/-- A fully rendered field: head followed by its validation lines. -/
def renderFieldBody (f : Field) : String :=
  fieldHead f ++ String.join ((f.validation.getD []).map renderValidationLine)

/-- Modelled from the spec: render one field, rejecting a field type outside
the allow-list at the point where the field is rendered. -/
def compileField (f : Field) : Except UnsupportedAppSpecFeatureError String :=
  if SUPPORTED_FIELD_TYPES.contains f.type then .ok (renderFieldBody f)
  else .error (fieldTypeError f.type)

/-- One staff-action line (the action's target state is rendered; the spec
mandates no allow-list check here). -/
def renderAction (a : Action) : String :=
  "  - Action " ++ a.id ++ " [" ++ a.variant ++ "]: " ++ a.label
    ++ " leads to state " ++ a.targetState
    ++ (match a.requiresNote with
        | some true => " (requires a note)"
        | _ => "")
    ++ "\n"

/-- The header line of a rendered page. -/
def renderPageHeader (p : Page) : String :=
  "- Page " ++ p.id ++ " (" ++ p.type ++ ") at route " ++ p.route
    ++ " for role " ++ p.role ++ ": " ++ p.title
    ++ (match p.description with
        | some d => " -- " ++ d
        | none => "")
    ++ "\n"

/-- The rendered staff actions of a page. -/
def pageActionsText (p : Page) : String :=
  String.join ((p.actions.getD []).map renderAction)

/-- Modelled from the spec: render one page, rejecting a page type outside
the allow-list, then rendering its fields (each of which may reject its own
type) and actions in declaration order. -/
def compilePage (p : Page) : Except UnsupportedAppSpecFeatureError String :=
  if SUPPORTED_PAGE_TYPES.contains p.type then
    match mapME compileField (p.fields.getD []) with
    | .error e => .error e
    | .ok fieldTexts =>
        .ok ((renderPageHeader p ++ String.join fieldTexts) ++ pageActionsText p)
  else .error (pageTypeError p.type)

/-- Modelled from the spec: a workflow state outside the closed 5-state set
is rejected where it is rendered. -/
def checkWorkflowState (st : String) : Except UnsupportedAppSpecFeatureError String :=
  if SUPPORTED_WORKFLOW_STATES.contains st then .ok st
  else .error (workflowStateError st)

/-- One transition line; an array-valued `from` is expanded in full. -/
def renderTransition (tr : Transition) : String :=
  "  - from " ++ (match tr.fromStates with
      | .single s => s
      | .multiple ss => String.intercalate ", " ss)
    ++ " to " ++ tr.toState
    ++ " (roles: " ++ String.intercalate ", " tr.allowedRoles ++ ")\n"

/-- Modelled from the spec: render the workflow — every state is checked
against the closed set, then `transitions.length > 3 * states.length` raises
the distinct complexity error, then states, initial state and transitions
are rendered. -/
def compileWorkflow (w : WorkflowConfig) : Except UnsupportedAppSpecFeatureError String :=
  match mapME checkWorkflowState w.states with
  | .error e => .error e
  | .ok _ =>
      if 3 * w.states.length < w.transitions.length then
        .error (workflowComplexityError w.transitions.length w.states.length)
      else
        .ok ("WORKFLOW\nStates: " ++ String.intercalate ", " w.states
          ++ "\nInitial state: " ++ w.initialState
          ++ "\nTransitions:\n"
          ++ String.join (w.transitions.map renderTransition))

/-- The application header section. -/
def renderHeader (spec : FastformAppSpec) : String :=
  "APPLICATION\nName: " ++ spec.meta.name
    ++ "\nSlug: " ++ spec.meta.slug
    ++ "\nDescription: " ++ spec.meta.description
    ++ "\nOrganization: " ++ spec.meta.orgId ++ " (" ++ spec.meta.orgSlug ++ ")"
    ++ "\nApp id: " ++ spec.id ++ "\n"

/-- One role line. -/
def renderRole (r : Role) : String :=
  "- " ++ r.id
    ++ (if r.authRequired then " (authentication required)" else " (no authentication)")
    ++ (match r.routePrefix with
        | some rp => ", route prefix " ++ rp
        | none => "")
    ++ "\n"

/-- The roles section. -/
def renderRoles (roles : List Role) : String :=
  "ROLES\n" ++ String.join (roles.map renderRole)

/-- The theme section. -/
def renderTheme (t : ThemeConfig) : String :=
  "THEME\nPreset: " ++ t.preset
    ++ (match t.logo with
        | some l => "\nLogo: " ++ l
        | none => "")
    ++ (match t.colors with
        | some c =>
            "\nColors:"
              ++ (match c.primary with
                  | some x => " primary " ++ x
                  | none => "")
              ++ (match c.background with
                  | some x => " background " ++ x
                  | none => "")
              ++ (match c.text with
                  | some x => " text " ++ x
                  | none => "")
        | none => "")
    ++ "\n"

/-- The API section; the fixed endpoint catalogue is listed in alphabetical
order of endpoint name (a fixed order, per the determinism contract). -/
def renderApi (api : ApiConfig) : String :=
  "API\nBase URL: " ++ api.baseUrl ++ "\nEndpoints:\n"
    ++ "  - createSubmission: " ++ api.endpoints.createSubmission ++ "\n"
    ++ "  - getSubmission: " ++ api.endpoints.getSubmission ++ "\n"
    ++ "  - getSubmissionDetail: " ++ api.endpoints.getSubmissionDetail ++ "\n"
    ++ "  - listSubmissions: " ++ api.endpoints.listSubmissions ++ "\n"
    ++ "  - resubmitSubmission: " ++ api.endpoints.resubmitSubmission ++ "\n"
    ++ "  - staffLogin: " ++ api.endpoints.staffLogin ++ "\n"
    ++ "  - staffLogout: " ++ api.endpoints.staffLogout ++ "\n"
    ++ "  - staffSession: " ++ api.endpoints.staffSession ++ "\n"
    ++ "  - trackEvent: " ++ api.endpoints.trackEvent ++ "\n"
    ++ "  - transitionSubmission: " ++ api.endpoints.transitionSubmission ++ "\n"

/-- One analytics-event line. -/
def renderAnalyticsEvent (e : AnalyticsEvent) : String :=
  "  - " ++ e.name ++ " on " ++ e.trigger
    ++ (match e.page with
        | some p => " at " ++ p
        | none => "")
    ++ "\n"

/-- The analytics section. -/
def renderAnalytics (a : AnalyticsConfig) : String :=
  "ANALYTICS\n" ++ String.join (a.events.map renderAnalyticsEvent)

/-- The environments section. -/
def renderEnvironments (env : EnvironmentConfig) : String :=
  "ENVIRONMENTS\nStaging: " ++ env.staging.domain
    ++ " (api " ++ env.staging.apiUrl ++ ")"
    ++ "\nProduction: " ++ env.production.domain
    ++ " (api " ++ env.production.apiUrl ++ ")\n"

/-- Modelled from the spec: the fixed final CONSTRAINTS block (a static text
block, not derived from the spec document). -/
def constraintsSection : String :=
  "CONSTRAINTS\n"
    ++ "- Do not use external UI or form libraries\n"
    ++ "- Use camelCase PostgreSQL column names\n"
    ++ "- Perform all data mutations server-side\n"
    ++ "- Enforce multi-tenancy by appId on every query\n"
    ++ "- Meet accessibility standards\n"
    ++ "- Use a responsive layout on every page\n"

/-- Modelled from the spec: `compileAppSpecToPrompt` — a pure, deterministic
projection of the spec into one prompt string, rendering the sections in the
fixed order (header, roles, theme, pages, workflow, API, analytics,
environments, constraints) and aborting with
`UnsupportedAppSpecFeatureError` at the first unsupported construct. -/
def compileAppSpecToPrompt (spec : FastformAppSpec) :
    Except UnsupportedAppSpecFeatureError String :=
  match mapME compilePage spec.pages with
  | .error e => .error e
  | .ok pageTexts =>
      match compileWorkflow spec.workflow with
      | .error e => .error e
      | .ok workflowText =>
          .ok (renderHeader spec ++ renderRoles spec.roles ++ renderTheme spec.theme
            ++ ("PAGES\n" ++ String.join pageTexts)
            ++ workflowText
            ++ renderApi spec.api
            ++ renderAnalytics spec.analytics
            ++ renderEnvironments spec.environments
            ++ constraintsSection)

/-! ### Substring occurrence, for statements about message and prompt
content -/

/-- `needle` occurs somewhere inside `hay` (character lists). -/
def partL (needle : List Char) : List Char → Bool
  | [] => startsWithL needle []
  | c :: rest => startsWithL needle (c :: rest) || partL needle rest

/-- `needle` occurs somewhere inside `haystack` (JS `includes`). -/
def strHas (haystack needle : String) : Bool :=
  partL needle.data haystack.data

lemma startsWithL_iff (n h : List Char) :
    startsWithL n h = true ↔ ∃ t, h = n ++ t := by
  induction n generalizing h with
  | nil => simp [startsWithL]
  | cons a as ih =>
    cases h with
    | nil =>
      simp [startsWithL]
    | cons b bs =>
      simp only [startsWithL, Bool.and_eq_true, beq_iff_eq, ih, List.cons_append,
        List.cons.injEq]
      constructor
      · rintro ⟨rfl, t, rfl⟩
        exact ⟨t, rfl, rfl⟩
      · rintro ⟨t, rfl, rfl⟩
        exact ⟨rfl, t, rfl⟩

lemma partL_iff (n h : List Char) :
    partL n h = true ↔ ∃ x y, h = x ++ (n ++ y) := by
  induction h with
  | nil =>
    simp only [partL, startsWithL_iff]
    constructor
    · rintro ⟨t, ht⟩
      exact ⟨[], t, by simpa using ht⟩
    · rintro ⟨x, y, hxy⟩
      rcases List.append_eq_nil.mp hxy.symm with ⟨rfl, h2⟩
      rcases List.append_eq_nil.mp h2 with ⟨rfl, rfl⟩
      exact ⟨[], rfl⟩
  | cons c rest ih =>
    simp only [partL, Bool.or_eq_true, startsWithL_iff, ih]
    constructor
    · rintro (⟨t, ht⟩ | ⟨x, y, hxy⟩)
      · exact ⟨[], t, by simpa using ht⟩
      · exact ⟨c :: x, y, by simp [hxy]⟩
    · rintro ⟨x, y, hxy⟩
      cases x with
      | nil =>
        exact Or.inl ⟨y, by simpa using hxy⟩
      | cons x₀ xs =>
        right
        simp only [List.cons_append, List.cons.injEq] at hxy
        exact ⟨xs, y, hxy.2⟩

lemma strData_append (s t : String) : (s ++ t).data = s.data ++ t.data := by
  cases s; cases t; rfl

lemma strHas_iff (h n : String) :
    strHas h n = true ↔ ∃ x y, h.data = x ++ (n.data ++ y) := partL_iff n.data h.data

lemma strHas_self (s : String) : strHas s s = true := by
  rw [strHas_iff]
  exact ⟨[], [], by simp⟩

lemma strHas_of_left (a b n : String) (hab : strHas a n = true) :
    strHas (a ++ b) n = true := by
  rw [strHas_iff] at hab ⊢
  obtain ⟨x, y, hxy⟩ := hab
  exact ⟨x, y ++ b.data, by simp [strData_append, hxy]⟩

lemma strHas_of_right (a b n : String) (hab : strHas b n = true) :
    strHas (a ++ b) n = true := by
  rw [strHas_iff] at hab ⊢
  obtain ⟨x, y, hxy⟩ := hab
  exact ⟨a.data ++ x, y, by simp [strData_append, hxy]⟩

lemma strHas_mid (a n b : String) : strHas (a ++ n ++ b) n = true :=
  strHas_of_left _ _ _ (strHas_of_right _ _ _ (strHas_self n))

lemma strHas_trans (a b n : String) (h₁ : strHas a b = true) (h₂ : strHas b n = true) :
    strHas a n = true := by
  rw [strHas_iff] at h₁ h₂ ⊢
  obtain ⟨x, y, hxy⟩ := h₁
  obtain ⟨u, v, huv⟩ := h₂
  exact ⟨x ++ u, v ++ y, by simp [hxy, huv]⟩

lemma strEmpty_append (s : String) : "" ++ s = s := by
  cases s with
  | mk l => rfl

lemma strAppend_empty (s : String) : s ++ "" = s := by
  cases s with
  | mk l =>
    show String.mk (l ++ []) = String.mk l
    rw [List.append_nil]

lemma strFoldl_append_acc (l : List String) (a : String) :
    l.foldl (fun r s => r ++ s) a = a ++ l.foldl (fun r s => r ++ s) "" := by
  induction l generalizing a with
  | nil => exact (strAppend_empty a).symm
  | cons b bs ih =>
    show bs.foldl _ (a ++ b) = a ++ bs.foldl _ ("" ++ b)
    rw [ih (a ++ b), ih ("" ++ b), strEmpty_append, String.append_assoc]

lemma strJoin_cons (a : String) (rest : List String) :
    String.join (a :: rest) = a ++ String.join rest := by
  show rest.foldl _ ("" ++ a) = a ++ rest.foldl _ ""
  rw [strEmpty_append, strFoldl_append_acc]

lemma strHas_join_of_mem (l : List String) (s : String) (hs : s ∈ l) :
    strHas (String.join l) s = true := by
  induction l with
  | nil => cases hs
  | cons a rest ih =>
    rcases List.mem_cons.mp hs with rfl | hmem
    · rw [strJoin_cons]; exact strHas_of_left _ _ _ (strHas_self s)
    · rw [strJoin_cons]; exact strHas_of_right _ _ _ (ih hmem)

/-! ### Success and failure characterisation of the compiler -/

/-- Whether an `Except` computation succeeded. -/
def isOkE {ε α : Type} : Except ε α → Bool
  | .ok _ => true
  | .error _ => false

lemma isOkE_mapME {ε α β : Type} (f : α → Except ε β) (l : List α) :
    isOkE (mapME f l) = l.all fun x => isOkE (f x) := by
  induction l with
  | nil => rfl
  | cons x xs ih =>
    simp only [mapME, List.all_cons]
    cases hf : f x with
    | error e => simp [isOkE]
    | ok y =>
      have h1 : isOkE (Except.ok y : Except ε β) = true := rfl
      rw [h1, Bool.true_and, ← ih]
      cases mapME f xs with
      | error e => rfl
      | ok ys => rfl

lemma mapME_error_mem {ε α β : Type} (f : α → Except ε β) (l : List α)
    (e : ε) (h : mapME f l = .error e) : ∃ x ∈ l, f x = .error e := by
  induction l with
  | nil => simp [mapME] at h
  | cons x xs ih =>
    rw [mapME] at h
    cases hf : f x with
    | error e' =>
      rw [hf] at h
      cases h
      exact ⟨x, List.mem_cons_self x xs, hf⟩
    | ok y =>
      rw [hf] at h
      cases hm : mapME f xs with
      | error e' =>
        rw [hm] at h
        cases h
        obtain ⟨z, hz, hfz⟩ := ih hm
        exact ⟨z, List.mem_cons_of_mem x hz, hfz⟩
      | ok ys =>
        rw [hm] at h
        cases h

lemma mapME_ok_mem {ε α β : Type} (f : α → Except ε β) (l : List α)
    (ys : List β) (h : mapME f l = .ok ys) (x : α) (hx : x ∈ l) :
    ∃ y ∈ ys, f x = .ok y := by
  induction l generalizing ys with
  | nil => cases hx
  | cons a rest ih =>
    rw [mapME] at h
    cases hf : f a with
    | error e => rw [hf] at h; cases h
    | ok y =>
      rw [hf] at h
      cases hm : mapME f rest with
      | error e => rw [hm] at h; cases h
      | ok zs =>
        rw [hm] at h
        cases h
        rcases List.mem_cons.mp hx with rfl | hmem
        · exact ⟨y, List.mem_cons_self y zs, hf⟩
        · obtain ⟨z, hz, hfz⟩ := ih zs hm hmem
          exact ⟨z, List.mem_cons_of_mem y hz, hfz⟩

/-- Whether a single page is within the v1 capability surface. -/
def pageSupported (p : Page) : Bool :=
  SUPPORTED_PAGE_TYPES.contains p.type
  && (p.fields.getD []).all fun f => SUPPORTED_FIELD_TYPES.contains f.type

/-- Whether a workflow is within the v1 capability surface. -/
def workflowSupported (w : WorkflowConfig) : Bool :=
  (w.states.all fun st => SUPPORTED_WORKFLOW_STATES.contains st)
  && decide (w.transitions.length ≤ 3 * w.states.length)

/-- Whether a whole spec is within the v1 capability surface. -/
def specSupported (s : FastformAppSpec) : Bool :=
  s.pages.all pageSupported && workflowSupported s.workflow

lemma isOkE_compileField (f : Field) :
    isOkE (compileField f) = SUPPORTED_FIELD_TYPES.contains f.type := by
  rw [compileField]
  split <;> simp_all [isOkE]

lemma isOkE_compilePage (p : Page) :
    isOkE (compilePage p) = pageSupported p := by
  rw [compilePage, pageSupported]
  cases hsup : SUPPORTED_PAGE_TYPES.contains p.type with
  | false => simp [isOkE]
  | true =>
    have hall : (p.fields.getD []).all (fun f => SUPPORTED_FIELD_TYPES.contains f.type)
        = isOkE (mapME compileField (p.fields.getD [])) := by
      rw [isOkE_mapME]
      exact all_congrB _ _ _ fun f _ => (isOkE_compileField f).symm
    simp only [if_true, Bool.true_and, hall]
    cases hm : mapME compileField (p.fields.getD []) with
    | error e => rfl
    | ok ys => rfl

lemma isOkE_checkWorkflowState (st : String) :
    isOkE (checkWorkflowState st) = SUPPORTED_WORKFLOW_STATES.contains st := by
  rw [checkWorkflowState]
  split <;> simp_all [isOkE]

lemma isOkE_compileWorkflow (w : WorkflowConfig) :
    isOkE (compileWorkflow w) = workflowSupported w := by
  rw [compileWorkflow, workflowSupported]
  have hall : (w.states.all fun st => SUPPORTED_WORKFLOW_STATES.contains st)
      = isOkE (mapME checkWorkflowState w.states) := by
    rw [isOkE_mapME]
    exact all_congrB _ _ _ fun st _ => (isOkE_checkWorkflowState st).symm
  rw [hall]
  cases hm : mapME checkWorkflowState w.states with
  | error e => rfl
  | ok ys =>
    have h1 : isOkE (Except.ok ys : Except UnsupportedAppSpecFeatureError (List String)) = true := rfl
    rw [h1, Bool.true_and]
    by_cases hlt : 3 * w.states.length < w.transitions.length
    · simp [hlt, isOkE, Nat.not_le.mpr hlt]
    · simp [hlt, isOkE, Nat.not_lt.mp hlt]

lemma isOkE_compileAppSpec (s : FastformAppSpec) :
    isOkE (compileAppSpecToPrompt s) = specSupported s := by
  rw [compileAppSpecToPrompt, specSupported]
  have hp : s.pages.all pageSupported = isOkE (mapME compilePage s.pages) := by
    rw [isOkE_mapME]
    exact all_congrB _ _ _ fun p _ => (isOkE_compilePage p).symm
  rw [hp, ← isOkE_compileWorkflow]
  cases mapME compilePage s.pages with
  | error e => rfl
  | ok ts =>
    cases compileWorkflow s.workflow with
    | error e => rfl
    | ok wt => rfl

lemma compileField_error (f : Field) (e : UnsupportedAppSpecFeatureError)
    (h : compileField f = .error e) :
    SUPPORTED_FIELD_TYPES.contains f.type = false ∧ e = fieldTypeError f.type := by
  rw [compileField] at h
  split at h
  · cases h
  · rename_i hc
    cases h
    exact ⟨by simpa using hc, rfl⟩

lemma compilePage_error (p : Page) (e : UnsupportedAppSpecFeatureError)
    (h : compilePage p = .error e) :
    (SUPPORTED_PAGE_TYPES.contains p.type = false ∧ e = pageTypeError p.type)
    ∨ (∃ f ∈ p.fields.getD [],
        SUPPORTED_FIELD_TYPES.contains f.type = false ∧ e = fieldTypeError f.type) := by
  rw [compilePage] at h
  split at h
  · cases hm : mapME compileField (p.fields.getD []) with
    | error e' =>
      rw [hm] at h
      cases h
      right
      obtain ⟨f, hf, hfe⟩ := mapME_error_mem _ _ _ hm
      obtain ⟨hc, he⟩ := compileField_error f _ hfe
      exact ⟨f, hf, hc, he⟩
    | ok ys => rw [hm] at h; cases h
  · rename_i hc
    cases h
    exact Or.inl ⟨by simpa using hc, rfl⟩

lemma checkWorkflowState_error (st : String) (e : UnsupportedAppSpecFeatureError)
    (h : checkWorkflowState st = .error e) :
    SUPPORTED_WORKFLOW_STATES.contains st = false ∧ e = workflowStateError st := by
  rw [checkWorkflowState] at h
  split at h
  · cases h
  · rename_i hc
    cases h
    exact ⟨by simpa using hc, rfl⟩

lemma compileWorkflow_error (w : WorkflowConfig) (e : UnsupportedAppSpecFeatureError)
    (h : compileWorkflow w = .error e) :
    (∃ st ∈ w.states,
        SUPPORTED_WORKFLOW_STATES.contains st = false ∧ e = workflowStateError st)
    ∨ ((w.states.all fun st => SUPPORTED_WORKFLOW_STATES.contains st) = true
        ∧ 3 * w.states.length < w.transitions.length
        ∧ e = workflowComplexityError w.transitions.length w.states.length) := by
  rw [compileWorkflow] at h
  cases hm : mapME checkWorkflowState w.states with
  | error e' =>
    rw [hm] at h
    cases h
    left
    obtain ⟨st, hst, hse⟩ := mapME_error_mem _ _ _ hm
    obtain ⟨hc, he⟩ := checkWorkflowState_error st _ hse
    exact ⟨st, hst, hc, he⟩
  | ok ys =>
    rw [hm] at h
    have hall : (w.states.all fun st => SUPPORTED_WORKFLOW_STATES.contains st) = true := by
      have hok : isOkE (mapME checkWorkflowState w.states) = true := by rw [hm]; rfl
      rw [isOkE_mapME] at hok
      rw [← hok]
      exact all_congrB _ _ _ fun st _ => (isOkE_checkWorkflowState st).symm
    by_cases hlt : 3 * w.states.length < w.transitions.length
    · rw [if_pos hlt] at h
      cases h
      exact Or.inr ⟨hall, hlt, rfl⟩
    · rw [if_neg hlt] at h
      cases h

lemma compileAppSpec_error (s : FastformAppSpec) (e : UnsupportedAppSpecFeatureError)
    (h : compileAppSpecToPrompt s = .error e) :
    (∃ p ∈ s.pages, compilePage p = .error e)
    ∨ (s.pages.all pageSupported = true ∧ compileWorkflow s.workflow = .error e) := by
  rw [compileAppSpecToPrompt] at h
  cases hm : mapME compilePage s.pages with
  | error e' =>
    rw [hm] at h
    cases h
    exact Or.inl (mapME_error_mem _ _ _ hm)
  | ok ts =>
    rw [hm] at h
    cases hw : compileWorkflow s.workflow with
    | error e' =>
      rw [hw] at h
      cases h
      right
      refine ⟨?_, rfl⟩
      have hok : isOkE (mapME compilePage s.pages) = true := by rw [hm]; rfl
      rw [isOkE_mapME] at hok
      rw [← hok]
      exact all_congrB _ _ _ fun p _ => (isOkE_compilePage p).symm
    | ok wt => rw [hw] at h; cases h

lemma compileAppSpec_ok (s : FastformAppSpec) (out : String)
    (h : compileAppSpecToPrompt s = .ok out) :
    ∃ pts wt, mapME compilePage s.pages = .ok pts
      ∧ compileWorkflow s.workflow = .ok wt
      ∧ out = renderHeader s ++ renderRoles s.roles ++ renderTheme s.theme
          ++ ("PAGES\n" ++ String.join pts)
          ++ wt
          ++ renderApi s.api
          ++ renderAnalytics s.analytics
          ++ renderEnvironments s.environments
          ++ constraintsSection := by
  rw [compileAppSpecToPrompt] at h
  cases hm : mapME compilePage s.pages with
  | error e => rw [hm] at h; cases h
  | ok pts =>
    rw [hm] at h
    cases hw : compileWorkflow s.workflow with
    | error e => rw [hw] at h; cases h
    | ok wt =>
      rw [hw] at h
      simp only [Except.ok.injEq] at h
      exact ⟨pts, wt, rfl, rfl, h.symm⟩

lemma compilePage_ok (p : Page) (pt : String) (h : compilePage p = .ok pt) :
    ∃ fts, mapME compileField (p.fields.getD []) = .ok fts
      ∧ pt = (renderPageHeader p ++ String.join fts) ++ pageActionsText p := by
  rw [compilePage] at h
  split at h
  · cases hm : mapME compileField (p.fields.getD []) with
    | error e => rw [hm] at h; cases h
    | ok fts =>
      rw [hm] at h
      cases h
      exact ⟨fts, rfl, rfl⟩
  · cases h

lemma compileField_ok_of_supported (f : Field)
    (h : SUPPORTED_FIELD_TYPES.contains f.type = true) :
    compileField f = .ok (renderFieldBody f) := by
  rw [compileField, if_pos h]

lemma pageTypeError_msg (t : String) :
    strHas (pageTypeError t).message t = true
    ∧ strHas (pageTypeError t).message "not supported" = true :=
  ⟨strHas_mid "Page type \"" t "\" is not supported in v1",
   strHas_of_right _ _ _ (by decide)⟩

lemma fieldTypeError_msg (t : String) :
    strHas (fieldTypeError t).message t = true
    ∧ strHas (fieldTypeError t).message "not supported" = true :=
  ⟨strHas_mid "Field type \"" t "\" is not supported in v1",
   strHas_of_right _ _ _ (by decide)⟩

lemma workflowStateError_msg (t : String) :
    strHas (workflowStateError t).message t = true
    ∧ strHas (workflowStateError t).message "not supported" = true :=
  ⟨strHas_mid "Workflow state \"" t "\" is not supported in v1",
   strHas_of_right _ _ _ (by decide)⟩

lemma workflowComplexityError_msg (tc sc : Nat) :
    strHas (workflowComplexityError tc sc).message (toString tc ++ " transitions") = true
    ∧ strHas (workflowComplexityError tc sc).message (toString sc ++ " states") = true :=
  ⟨strHas_mid "Workflow is too complex for v1: " (toString tc ++ " transitions")
      (" across " ++ (toString sc ++ " states")),
   strHas_of_right _ _ _ (strHas_of_right _ _ _ (strHas_self _))⟩

/-- `t` is a literal that occurs in the spec in a position governed by an
allow-list and lies outside that allow-list. -/
def offendingLiteral (s : FastformAppSpec) (t : String) : Prop :=
  (∃ p ∈ s.pages, p.type = t ∧ SUPPORTED_PAGE_TYPES.contains t = false)
  ∨ (∃ p ∈ s.pages, ∃ f ∈ p.fields.getD [],
      f.type = t ∧ SUPPORTED_FIELD_TYPES.contains t = false)
  ∨ (t ∈ s.workflow.states ∧ SUPPORTED_WORKFLOW_STATES.contains t = false)

/-- The fixed endpoint catalogue used by the minimal test specs (the values
of the repository's own minimal test fixture). -/
def minimalEndpoints : ApiEndpoints :=
  ⟨"POST /api/apps/:appId/submissions"
  , "GET /api/apps/:appId/submissions/:id"
  , "POST /api/apps/:appId/submissions/:id/resubmit"
  , "POST /api/apps/:appId/staff/login"
  , "POST /api/apps/:appId/staff/logout"
  , "GET /api/apps/:appId/staff/session"
  , "GET /api/apps/:appId/staff/inbox"
  , "GET /api/apps/:appId/staff/submissions/:id"
  , "POST /api/apps/:appId/staff/submissions/:id/transition"
  , "POST /api/apps/:appId/events"⟩

/-- A minimal, otherwise-supported spec with the given pages and workflow
(mirroring the repository's `createMinimalAppSpec` test fixture). -/
def minimalSpecWith (pages : List Page) (workflow : WorkflowConfig) : FastformAppSpec :=
  ⟨"test-app-id"
  , "0.3"
  , ⟨"Test App", "test-app", "A minimal test application", "test-org-id", "test-org"⟩
  , ⟨"healthcare-calm", none, none⟩
  , [⟨"PATIENT", false, none⟩, ⟨"STAFF", true, some "/staff"⟩]
  , pages
  , workflow
  , ⟨"\x7b\x7bFASTFORM_API_URL\x7d\x7d", minimalEndpoints⟩
  , ⟨[⟨"page_view", "pageview", some "/"⟩]⟩
  , ⟨⟨"test-app-staging.getfastform.com", "https://api-staging.getfastform.com"⟩
    , ⟨"test-app.getfastform.com", "https://api.getfastform.com"⟩⟩⟩

/-- The minimal two-state workflow of the test fixture. -/
def minimalWorkflow : WorkflowConfig :=
  ⟨["DRAFT", "SUBMITTED"], "DRAFT", [⟨.single "DRAFT", "SUBMITTED", ["PATIENT"]⟩]⟩

/-- An otherwise-minimal spec whose only page has the given page type. -/
def minimalSpecWithPageType (t : String) : FastformAppSpec :=
  minimalSpecWith [⟨"welcome", "/", "PATIENT", t, "Welcome", none, none, none⟩]
    minimalWorkflow

/-- An otherwise-minimal spec whose only page is a form with a single field
of the given field type. -/
def minimalSpecWithFieldType (t : String) : FastformAppSpec :=
  minimalSpecWith
    [⟨"form-page", "/form", "PATIENT", "form", "Form",
      none, some [⟨"testField", t, "Test Field", none, some false, none, none, none⟩], none⟩]
    minimalWorkflow

/-- An otherwise-minimal spec whose workflow declares only the given state. -/
def minimalSpecWithState (t : String) : FastformAppSpec :=
  minimalSpecWith [⟨"welcome", "/", "PATIENT", "welcome", "Welcome", none, none, none⟩]
    ⟨[t], t, []⟩

/-- C2 (spec-modelled): allow-list enforcement.  Whenever the spec contains a
page type, field type or workflow state outside the v1 allow-lists,
compilation throws an `UnsupportedAppSpecFeatureError` whose message contains
"not supported" and an offending out-of-allow-list literal of the spec; and
conversely, for every type in an allow-list, the otherwise-minimal spec
exercising just that construct compiles without throwing. -/
theorem compile_allowlist_enforcement :
    (∀ (s : FastformAppSpec) (t : String), offendingLiteral s t →
        ∃ e, compileAppSpecToPrompt s = .error e
          ∧ strHas e.message "not supported" = true
          ∧ ∃ u, offendingLiteral s u ∧ strHas e.message u = true)
    ∧ (SUPPORTED_PAGE_TYPES.all
        (fun t => isOkE (compileAppSpecToPrompt (minimalSpecWithPageType t))) = true)
    ∧ (SUPPORTED_FIELD_TYPES.all
        (fun t => isOkE (compileAppSpecToPrompt (minimalSpecWithFieldType t))) = true)
    ∧ (SUPPORTED_WORKFLOW_STATES.all
        (fun t => isOkE (compileAppSpecToPrompt (minimalSpecWithState t))) = true) := by
  refine ⟨?_, ?_, ?_, ?_⟩
  · intro s t hoff
    have hnotok : ¬ specSupported s = true := by
      intro h
      rw [specSupported, Bool.and_eq_true] at h
      rcases hoff with ⟨p, hp, rfl, hc⟩ | ⟨p, hp, f, hf, rfl, hc⟩ | ⟨hst, hc⟩
      · have hps := List.all_eq_true.mp h.1 p hp
        rw [pageSupported, Bool.and_eq_true, hc] at hps
        exact absurd hps.1 (by simp)
      · have hps := List.all_eq_true.mp h.1 p hp
        rw [pageSupported, Bool.and_eq_true] at hps
        have hfs := List.all_eq_true.mp hps.2 f hf
        rw [hc] at hfs
        exact absurd hfs (by simp)
      · have hw := h.2
        rw [workflowSupported, Bool.and_eq_true] at hw
        have := List.all_eq_true.mp hw.1 t hst
        rw [hc] at this
        exact absurd this (by simp)
    obtain ⟨e, he⟩ : ∃ e, compileAppSpecToPrompt s = .error e := by
      cases hc : compileAppSpecToPrompt s with
      | error e => exact ⟨e, rfl⟩
      | ok out =>
        exfalso
        apply hnotok
        rw [← isOkE_compileAppSpec, hc]
        rfl
    refine ⟨e, he, ?_⟩
    rcases compileAppSpec_error s e he with ⟨p, hp, hpe⟩ | ⟨hpages, hwe⟩
    · rcases compilePage_error p e hpe with ⟨hc, rfl⟩ | ⟨f, hf, hc, rfl⟩
      · exact ⟨(pageTypeError_msg p.type).2,
          p.type, Or.inl ⟨p, hp, rfl, hc⟩, (pageTypeError_msg p.type).1⟩
      · exact ⟨(fieldTypeError_msg f.type).2,
          f.type, Or.inr (Or.inl ⟨p, hp, f, hf, rfl, hc⟩), (fieldTypeError_msg f.type).1⟩
    · rcases compileWorkflow_error _ e hwe with ⟨st, hst, hc, rfl⟩ | ⟨hall, hlt, rfl⟩
      · exact ⟨(workflowStateError_msg st).2,
          st, Or.inr (Or.inr ⟨hst, hc⟩), (workflowStateError_msg st).1⟩
      · exfalso
        rcases hoff with ⟨p, hp, rfl, hc⟩ | ⟨p, hp, f, hf, rfl, hc⟩ | ⟨hst, hc⟩
        · have hps := List.all_eq_true.mp hpages p hp
          rw [pageSupported, Bool.and_eq_true, hc] at hps
          exact absurd hps.1 (by simp)
        · have hps := List.all_eq_true.mp hpages p hp
          rw [pageSupported, Bool.and_eq_true] at hps
          have hfs := List.all_eq_true.mp hps.2 f hf
          rw [hc] at hfs
          exact absurd hfs (by simp)
        · have := List.all_eq_true.mp hall t hst
          rw [hc] at this
          exact absurd this (by simp)
  · have : (fun t => isOkE (compileAppSpecToPrompt (minimalSpecWithPageType t)))
        = fun t => specSupported (minimalSpecWithPageType t) :=
      funext fun t => isOkE_compileAppSpec _
    rw [this]
    decide
  · have : (fun t => isOkE (compileAppSpecToPrompt (minimalSpecWithFieldType t)))
        = fun t => specSupported (minimalSpecWithFieldType t) :=
      funext fun t => isOkE_compileAppSpec _
    rw [this]
    decide
  · have : (fun t => isOkE (compileAppSpecToPrompt (minimalSpecWithState t)))
        = fun t => specSupported (minimalSpecWithState t) :=
      funext fun t => isOkE_compileAppSpec _
    rw [this]
    decide

/-- Witness for C2: an out-of-allow-list page type fails to compile, an
in-allow-list one compiles. -/
theorem compile_allowlist_enforcement_witness :
    isOkE (compileAppSpecToPrompt (minimalSpecWithPageType "dashboard")) = false
    ∧ isOkE (compileAppSpecToPrompt (minimalSpecWithPageType "form")) = true := by
  constructor
  · obtain ⟨e, he, _⟩ := compile_allowlist_enforcement.1
      (minimalSpecWithPageType "dashboard") "dashboard"
      (Or.inl ⟨⟨"welcome", "/", "PATIENT", "dashboard", "Welcome", none, none, none⟩,
        by decide, rfl, by decide⟩)
    rw [he]
    rfl
  · exact List.all_eq_true.mp compile_allowlist_enforcement.2.1 "form" (by decide)

lemma compileWorkflow_complexity (w : WorkflowConfig)
    (hstates : (w.states.all fun st => SUPPORTED_WORKFLOW_STATES.contains st) = true)
    (hlt : 3 * w.states.length < w.transitions.length) :
    compileWorkflow w
      = .error (workflowComplexityError w.transitions.length w.states.length) := by
  rw [compileWorkflow]
  have hok : isOkE (mapME checkWorkflowState w.states) = true := by
    rw [isOkE_mapME, ← hstates]
    exact all_congrB _ _ _ fun st _ => isOkE_checkWorkflowState st
  cases hm : mapME checkWorkflowState w.states with
  | error e =>
    rw [hm] at hok
    exact absurd hok (by simp [isOkE])
  | ok ys =>
    show (if 3 * w.states.length < w.transitions.length then _ else _) = _
    rw [if_pos hlt]

lemma compileAppSpec_workflow_error (s : FastformAppSpec)
    (hpages : s.pages.all pageSupported = true) (e : UnsupportedAppSpecFeatureError)
    (hw : compileWorkflow s.workflow = .error e) :
    compileAppSpecToPrompt s = .error e := by
  rw [compileAppSpecToPrompt]
  have hok : isOkE (mapME compilePage s.pages) = true := by
    rw [isOkE_mapME, ← hpages]
    exact all_congrB _ _ _ fun p _ => isOkE_compilePage p
  cases hm : mapME compilePage s.pages with
  | error e' =>
    rw [hm] at hok
    exact absurd hok (by simp [isOkE])
  | ok ts =>
    rw [hw]

/-- C4 (spec-modelled): the workflow-complexity threshold.  For a spec whose
pages and workflow states are within the allow-lists: exactly `3 * N`
transitions compile; more than `3 * N` transitions yield precisely the
`workflow.complexity` error whose message reports both counts (as
`<k> transitions` and `<N> states`) and whose suggestion recommends
simplifying the workflow. -/
theorem compile_workflow_complexity_threshold :
    ∀ s : FastformAppSpec,
      s.pages.all pageSupported = true →
      (s.workflow.states.all fun st => SUPPORTED_WORKFLOW_STATES.contains st) = true →
      (s.workflow.transitions.length = 3 * s.workflow.states.length →
          isOkE (compileAppSpecToPrompt s) = true)
      ∧ (3 * s.workflow.states.length < s.workflow.transitions.length →
          compileAppSpecToPrompt s
              = .error (workflowComplexityError s.workflow.transitions.length
                  s.workflow.states.length)
            ∧ (workflowComplexityError s.workflow.transitions.length
                s.workflow.states.length).feature = "workflow.complexity"
            ∧ strHas (workflowComplexityError s.workflow.transitions.length
                  s.workflow.states.length).message
                (toString s.workflow.transitions.length ++ " transitions") = true
            ∧ strHas (workflowComplexityError s.workflow.transitions.length
                  s.workflow.states.length).message
                (toString s.workflow.states.length ++ " states") = true
            ∧ strHas ((workflowComplexityError s.workflow.transitions.length
                  s.workflow.states.length).suggestion.getD "") "Simplify" = true) := by
  intro s hpages hstates
  constructor
  · intro heq
    rw [isOkE_compileAppSpec, specSupported, workflowSupported, hpages, hstates]
    simp [heq]
  · intro hlt
    refine ⟨?_, rfl, (workflowComplexityError_msg _ _).1,
      (workflowComplexityError_msg _ _).2, ?_⟩
    · exact compileAppSpec_workflow_error s hpages _
        (compileWorkflow_complexity _ hstates hlt)
    · show strHas "Simplify workflow to at most 3 transitions per declared state"
        "Simplify" = true
      decide

/-- A two-state workflow with seven transitions (one over the `3 * 2`
threshold). -/
def overComplexWorkflow : WorkflowConfig :=
  ⟨["DRAFT", "SUBMITTED"], "DRAFT",
    [ ⟨.single "DRAFT", "SUBMITTED", ["PATIENT"]⟩
    , ⟨.single "SUBMITTED", "DRAFT", ["PATIENT"]⟩
    , ⟨.single "DRAFT", "DRAFT", ["PATIENT"]⟩
    , ⟨.single "SUBMITTED", "SUBMITTED", ["STAFF"]⟩
    , ⟨.single "DRAFT", "SUBMITTED", ["STAFF"]⟩
    , ⟨.single "SUBMITTED", "DRAFT", ["STAFF"]⟩
    , ⟨.single "DRAFT", "DRAFT", ["STAFF"]⟩ ]⟩

/-- The same workflow with six transitions (exactly the threshold). -/
def atThresholdWorkflow : WorkflowConfig :=
  ⟨["DRAFT", "SUBMITTED"], "DRAFT",
    [ ⟨.single "DRAFT", "SUBMITTED", ["PATIENT"]⟩
    , ⟨.single "SUBMITTED", "DRAFT", ["PATIENT"]⟩
    , ⟨.single "DRAFT", "DRAFT", ["PATIENT"]⟩
    , ⟨.single "SUBMITTED", "SUBMITTED", ["STAFF"]⟩
    , ⟨.single "DRAFT", "SUBMITTED", ["STAFF"]⟩
    , ⟨.single "SUBMITTED", "DRAFT", ["STAFF"]⟩ ]⟩

/-- The welcome page of the minimal fixture. -/
def minimalWelcomePage : Page :=
  ⟨"welcome", "/", "PATIENT", "welcome", "Welcome", none, none, none⟩

/-- Witness for C4 at two states: seven transitions abort with the
complexity error, six compile. -/
theorem compile_workflow_complexity_threshold_witness :
    isOkE (compileAppSpecToPrompt (minimalSpecWith [minimalWelcomePage] overComplexWorkflow))
        = false
    ∧ isOkE (compileAppSpecToPrompt (minimalSpecWith [minimalWelcomePage] atThresholdWorkflow))
        = true := by
  constructor
  · have h := (compile_workflow_complexity_threshold
      (minimalSpecWith [minimalWelcomePage] overComplexWorkflow)
      (by decide) (by decide)).2 (by decide)
    rw [h.1]
    rfl
  · exact (compile_workflow_complexity_threshold
      (minimalSpecWith [minimalWelcomePage] atThresholdWorkflow)
      (by decide) (by decide)).1 (by decide)

/-- The validation-rule types with a dedicated natural-language rendering. -/
def knownValidationRuleTypes : List String :=
  ["minLength", "maxLength", "pattern", "min", "max"]

lemma renderValidationRule_unknown (r : ValidationRule)
    (h : r.type ∉ knownValidationRuleTypes) :
    renderValidationRule r = r.type ++ ": " ++ r.value := by
  simp only [knownValidationRuleTypes, List.mem_cons, List.not_mem_nil, or_false,
    not_or] at h
  obtain ⟨h1, h2, h3, h4, h5⟩ := h
  rw [renderValidationRule, if_neg h1, if_neg h2, if_neg h3, if_neg h4, if_neg h5]

/-- C6 (spec-modelled): an unknown validation-rule type never aborts
compilation — any spec within the capability surface compiles to a prompt —
and the unknown rule renders generically, so the prompt contains the literal
substring `<type>: <value>`. -/
theorem compile_unknown_validation_rule_renders :
    ∀ (s : FastformAppSpec) (p : Page) (f : Field) (r : ValidationRule),
      specSupported s = true →
      p ∈ s.pages → f ∈ p.fields.getD [] → r ∈ f.validation.getD [] →
      r.type ∉ knownValidationRuleTypes →
      ∃ out, compileAppSpecToPrompt s = .ok out
        ∧ strHas out (r.type ++ ": " ++ r.value) = true := by
  intro s p f r hsup hp hf hr hk
  have hok : isOkE (compileAppSpecToPrompt s) = true := by
    rw [isOkE_compileAppSpec]
    exact hsup
  cases hc : compileAppSpecToPrompt s with
  | error e =>
    rw [hc] at hok
    exact absurd hok (by simp [isOkE])
  | ok out =>
    refine ⟨out, rfl, ?_⟩
    obtain ⟨pts, wt, hm, hw, hout⟩ := compileAppSpec_ok s out hc
    obtain ⟨pt, hptmem, hpt⟩ := mapME_ok_mem _ _ _ hm p hp
    obtain ⟨fts, hfm, hptval⟩ := compilePage_ok p pt hpt
    obtain ⟨ft, hftmem, hft⟩ := mapME_ok_mem _ _ _ hfm f hf
    have hftype : SUPPORTED_FIELD_TYPES.contains f.type = true := by
      rw [specSupported, Bool.and_eq_true] at hsup
      have hps := List.all_eq_true.mp hsup.1 p hp
      rw [pageSupported, Bool.and_eq_true] at hps
      exact List.all_eq_true.mp hps.2 f hf
    have hftval : ft = renderFieldBody f := by
      have hcf := compileField_ok_of_supported f hftype
      rw [hft] at hcf
      exact ((Except.ok.injEq _ _).mp hcf)
    have h1 : strHas (renderValidationLine r) (r.type ++ ": " ++ r.value) = true := by
      rw [renderValidationLine, renderValidationRule_unknown r hk]
      exact strHas_mid _ _ _
    have h2 : strHas (renderFieldBody f) (renderValidationLine r) = true := by
      rw [renderFieldBody]
      exact strHas_of_right _ _ _
        (strHas_join_of_mem _ _ (List.mem_map_of_mem _ hr))
    have h3 : strHas pt ft = true := by
      rw [hptval]
      exact strHas_of_left _ _ _
        (strHas_of_right _ _ _ (strHas_join_of_mem _ _ hftmem))
    have h4 : strHas out pt = true := by
      rw [hout]
      have hj : strHas ("PAGES\n" ++ String.join pts) pt = true :=
        strHas_of_right _ _ _ (strHas_join_of_mem _ _ hptmem)
      exact strHas_of_left _ _ _ (strHas_of_left _ _ _ (strHas_of_left _ _ _
        (strHas_of_left _ _ _ (strHas_of_left _ _ _ (strHas_of_right _ _ _ hj)))))
    exact strHas_trans _ _ _ h4
      (strHas_trans _ _ _ (hftval ▸ h3) (strHas_trans _ _ _ h2 h1))

/-- The `customRule: x` validation rule of the round-trip scenario. -/
def c6rule : ValidationRule := ⟨"customRule", "x", "Custom validation failed"⟩

/-- A field carrying only the unknown rule. -/
def c6field : Field :=
  ⟨"customField", "text", "Custom Field", none, some true, none, none, some [c6rule]⟩

/-- A form page carrying only that field. -/
def c6page : Page :=
  ⟨"form-page", "/form", "PATIENT", "form", "Form", none, some [c6field], none⟩

/-- The otherwise-minimal spec for the round-trip scenario. -/
def c6spec : FastformAppSpec := minimalSpecWith [c6page] minimalWorkflow

/-- The prompt compiled from `c6spec` (its success is part of the witness). -/
def c6prompt : String :=
  match compileAppSpecToPrompt c6spec with
  | .ok out => out
  | .error _ => ""

/-- Witness for C6: the concrete spec with `customRule`/`x` compiles and its
prompt contains `customRule: x`. -/
theorem compile_unknown_validation_rule_witness :
    strHas c6prompt ("customRule" ++ ": " ++ "x") = true := by
  obtain ⟨out, hout, hsub⟩ := compile_unknown_validation_rule_renders
    c6spec c6page c6field c6rule (by decide) (by decide) (by decide) (by decide) (by decide)
  have hc : compileAppSpecToPrompt c6spec = .ok c6prompt := rfl
  rw [hc] at hout
  cases hout
  exact hsub

/-- The observable outputs of a sequence of compiler invocations: the
compiler is a pure function applied to each call's own argument, sharing no
state between calls. -/
def compileCallOutputs (calls : List FastformAppSpec) :
    List (Except UnsupportedAppSpecFeatureError String) :=
  calls.map compileAppSpecToPrompt

/-- C1 (spec-modelled): determinism and cross-call independence.  The output
of a call on `s` is a function of `s` alone: whatever compilations preceded
it, the last call of `prior ++ [s]` always yields exactly
`compileAppSpecToPrompt s` — byte-identical across invocations, with no
timestamps, randomness, environment reads or cross-call state in the
model. -/
theorem compile_deterministic_stateless :
    ∀ (s : FastformAppSpec) (prior otherPrior : List FastformAppSpec),
      (compileCallOutputs (prior ++ [s])).getLast?
          = (compileCallOutputs (otherPrior ++ [s])).getLast?
      ∧ (compileCallOutputs (prior ++ [s])).getLast? = some (compileAppSpecToPrompt s) := by
  intro s p1 p2
  have h : ∀ l : List FastformAppSpec,
      (compileCallOutputs (l ++ [s])).getLast? = some (compileAppSpecToPrompt s) := by
    intro l
    rw [compileCallOutputs, List.map_append, List.map_singleton, List.getLast?_concat]
  exact ⟨(h p1).trans (h p2).symm, h p1⟩

end Fastform
